import Mathlib

/-!
Verification of the immigration-monitor pipeline: a shallow embedding of the
dedup store (database.py), the classifier stack (classifiers/base.py, en.py,
ru.py), the notification dispatcher (outputs/telegram_bot.py) and the
orchestrator (main.py), together with theorems settling the specified
properties of the system.

Conventions of the embedding:
- Python strings are modelled as `String` or `List Char` (Unicode scalar
  values, matching Python code-point semantics for slicing and length).
- Wall-clock instants are `Int` seconds; the implicit `utcnow()` of the code
  becomes an explicit `now` parameter.
- The sqlite store becomes a pure `Database` value; every mutating method
  returns the updated value.
- The external AI call becomes an explicit parameter describing its outcome
  (`none` models: no credential, transport error, or unparseable JSON).
-/

/-! ## Character-level text processing (classifiers/base.py) -/

/-- Word characters as used by the regex escapes in the Python code, restricted
to the scripts the program actually handles: ASCII letters and digits, the
underscore, and the Cyrillic block U+0400..U+04FF (covering every Russian and
Ukrainian letter appearing in the marker lists). -/
def isWordChar (c : Char) : Bool :=
  c.isAlphanum || c == '_' || (decide (0x400 ≤ c.toNat) && decide (c.toNat ≤ 0x4FF))

/-- Whitespace characters of the regex whitespace class. -/
def isSpaceChar (c : Char) : Bool :=
  c == ' ' || c == '\t' || c == '\n' || c == '\r' ||
  c.toNat == 0x0b || c.toNat == 0x0c

/-- Lower-casing of one character as performed by the Python lower method, for
the ASCII and Cyrillic ranges used by the program. -/
def pyLowerChar (c : Char) : Char :=
  if decide ('A' ≤ c) && decide (c ≤ 'Z') then Char.ofNat (c.toNat + 32)
  else if decide (0x400 ≤ c.toNat) && decide (c.toNat ≤ 0x40F) then Char.ofNat (c.toNat + 80)
  else if decide (0x410 ≤ c.toNat) && decide (c.toNat ≤ 0x42F) then Char.ofNat (c.toNat + 32)
  else if c.toNat == 0x490 then Char.ofNat 0x491
  else c

/-- Lower-casing of a whole text. -/
def lower (s : List Char) : List Char := s.map pyLowerChar

/-- One step of the punctuation replacement in BaseClassifier, which substitutes
a space for every character that is neither a word character nor whitespace. -/
def cleanChar (c : Char) : Char :=
  if isWordChar c || isSpaceChar c then c else ' '

/-- BaseClassifier clean text: lower-case, then replace every character that is
neither a word character nor whitespace by a space. -/
def clean_text (s : List Char) : List Char := (lower s).map cleanChar

/-- No word character is present just before position `i` (or `i` is the start
of the text). -/
def boundaryBefore (text : List Char) (i : Nat) : Bool :=
  i == 0 || !isWordChar (text.getD (i - 1) ' ')

/-- No word character is present at position `j` (or `j` is past the end). -/
def boundaryAfter (text : List Char) (j : Nat) : Bool :=
  decide (text.length ≤ j) || !isWordChar (text.getD j ' ')

/-- BaseClassifier word match: the regex search for the keyword between two
word boundaries. Every keyword the program submits to this search begins and
ends with a word character, for which the two boundaries amount to: no word
character adjacent on either side of an occurrence. -/
def word_match (kw text : List Char) : Bool :=
  (List.range (text.length + 1)).any (fun i =>
    kw.isPrefixOf (text.drop i) && boundaryBefore text i &&
      boundaryAfter text (i + kw.length))

/-- The specification notion for claim C3: the marker occurs as a whole token
of the text, with no word character adjacent on either side. -/
def occursAsToken (kw t : List Char) : Prop :=
  ∃ pre post, pre ++ kw ++ post = t ∧
    (pre = [] ∨ ∃ a c, pre = a ++ [c] ∧ isWordChar c = false) ∧
    (post = [] ∨ ∃ c a, post = c :: a ∧ isWordChar c = false)

/-- Python substring containment (the `in` operator on strings). -/
def py_in (kw text : List Char) : Bool :=
  (List.range (text.length + 1)).any (fun i => kw.isPrefixOf (text.drop i))

/-- The short or ambiguous English keywords that require word-boundary matching
(en.py WHOLE_WORD_KEYWORDS). -/
def WHOLE_WORD_KEYWORDS : List (List Char) :=
  [("ice").data, ("ead").data, ("tps").data, ("cbp").data, ("i-94").data,
   ("eb1").data, ("eb2").data, ("o1").data, ("o-1").data, ("daca").data,
   ("niw").data]

/-- EnglishClassifier keyword match: word-boundary search for the short
keywords of the allowlist, plain substring containment otherwise; the operand
is the lower-cased (not punctuation-cleaned) text. -/
def keyword_match (kw text_lower : List Char) : Bool :=
  if WHOLE_WORD_KEYWORDS.contains kw then word_match kw text_lower
  else py_in kw text_lower

/-! ## Dedup store (database.py) -/

/-- One row of the processed items table. -/
structure ProcessedRecord where
  source : String
  group_name : String
  text_preview : String
  url : String
  classification : Option String
  processed_at : Int
  notified : Bool
deriving Repr, DecidableEq

/-- One row of the notification log table. -/
structure NotificationLogEntry where
  item_id : String
  sent_at : Int
deriving Repr, DecidableEq

/-- The sqlite database as a value. `cleanups` and `sends` are ghost
instrumentation read by no operation: `cleanups` counts the invocations of the
cleanup method, and `sends` records the item id of every invocation of the
mark-notified method, so that lifetime notification counts survive row
deletion. -/
structure Database where
  processed_items : List (String × ProcessedRecord)
  notification_log : List NotificationLogEntry
  cleanups : Nat
  sends : List String
deriving Repr, DecidableEq

def Database.empty : Database := ⟨[], [], 0, []⟩

/-- Point lookup used by the primary-key check of is-processed. -/
def Database.is_processed (db : Database) (item_id : String) : Bool :=
  db.processed_items.any (fun p => p.1 == item_id)

/-- The record stored under an id, if any. -/
def Database.lookup_record (db : Database) (item_id : String) : Option ProcessedRecord :=
  (db.processed_items.find? (fun p => p.1 == item_id)).map (fun p => p.2)

/-- Database.mark_processed: an insert-or-ignore keyed on the primary key, with
the text preview truncated to 500 characters. -/
def Database.mark_processed (db : Database) (now : Int) (item_id source group_name
    text_preview url : String) (classification : Option String) : Database :=
  if db.is_processed item_id then db
  else { db with processed_items := db.processed_items ++
          [(item_id, ⟨source, group_name, text_preview.take 500, url,
                      classification, now, false⟩)] }

/-- Database.mark_notified: an unconditional update of the notified flag (a
no-op on the rows when the id is absent) followed by an unconditional append to
the notification log. The Python method never raises on a missing id. -/
def Database.mark_notified (db : Database) (now : Int) (item_id : String) : Database :=
  { db with
    processed_items := db.processed_items.map (fun p =>
      if p.1 == item_id then (p.1, { p.2 with notified := true }) else p),
    notification_log := db.notification_log ++ [⟨item_id, now⟩],
    sends := db.sends ++ [item_id] }

/-- Database.cleanup_old_records: delete rows older than the retention cutoff
(30 days at the call sites). The row filters idealize the timestamps to
instants; the source compares stored sqlite text timestamps to an isoformat
cutoff string, which additionally deletes the rows of the cutoff day itself
(the space separator sorts below the letter T). Every claim about this
operation depends only on the ghost invocation counter, not on the rows. -/
def Database.cleanup_old_records (db : Database) (now : Int) (days : Int) : Database :=
  { db with
    processed_items := db.processed_items.filter (fun p =>
      decide (now - days * 86400 ≤ p.2.processed_at)),
    notification_log := db.notification_log.filter (fun e =>
      decide (now - days * 86400 ≤ e.sent_at)),
    cleanups := db.cleanups + 1 }

/-- Number of mark-notified invocations ever performed for an id (ghost). -/
def sendCount (item_id : String) (db : Database) : Nat :=
  (db.sends.filter (fun s => s == item_id)).length

/-- Number of stored records under an id. -/
def record_count (item_id : String) (db : Database) : Nat :=
  (db.processed_items.filter (fun p => p.1 == item_id)).length

/-! ## Classification results and the external AI call (classifiers/base.py) -/

/-- The dataclass ClassificationResult. `category`, `urgency`, `summary` and
`draft_response` are nullable in the Python code. The JSON null and the Python
False are indistinguishable to every consumer of the two boolean fields
(truthiness), so both map to `false` here; `confidence` is modelled as an exact
rational and no claim depends on it. -/
structure ClassificationResult where
  is_relevant : Bool
  is_question : Bool
  category : Option String
  urgency : Option String
  summary : Option String
  confidence : Option ℚ
  method : String
  draft_response : Option String
deriving Repr, DecidableEq

/-- The parsed JSON object of a successful AI response. A field of type
`Option (Option α)` distinguishes a missing key (`none`), an explicit JSON
null (`some none`) and a value (`some (some v)`); `summary` and
`draft_response` are read with the one-argument get, which collapses the first
two cases. -/
structure AiData where
  is_relevant : Option (Option Bool)
  is_question : Option (Option Bool)
  category : Option (Option String)
  urgency : Option (Option String)
  summary : Option String
  confidence : Option (Option ℚ)
  draft_response : Option String
deriving Repr, DecidableEq

/-- The two-argument dict get: the default fills in only a missing key; an
explicit JSON null passes through as `none`. -/
def pyGet {α : Type} (field : Option (Option α)) (default : α) : Option α :=
  match field with
  | none => some default
  | some v => v

/-- BaseClassifier AI call. `api_key` is the configured credential; `response`
is the outcome of the network call and JSON parse (`none` for a transport
error or malformed JSON). The call returns no result when the credential is
absent, empty or the placeholder, or when the call or parse failed. -/
def call_ai (api_key : Option String) (response : Option AiData) : Option ClassificationResult :=
  match api_key with
  | none => none
  | some k =>
    if k == "" || k == "YOUR_ANTHROPIC_API_KEY" then none
    else
      match response with
      | none => none
      | some data => some {
          is_relevant := (pyGet data.is_relevant false).getD false,
          is_question := (pyGet data.is_question false).getD false,
          category := pyGet data.category "other",
          urgency := pyGet data.urgency "medium",
          summary := data.summary,
          confidence := pyGet data.confidence (1/2),
          method := "ai",
          draft_response := data.draft_response }

/-! ## Category detection (classifiers/base.py and en.py) -/

/-- The ordered category marker table of BaseClassifier (a Python dict, whose
iteration order is its insertion order). -/
def CATEGORY_MARKERS : List (String × List String) := [
  ("asylum", [
    "asylum", "refugee", "persecution",
    "убежище", "убежища", "убежищу", "убежищем",
    "политическое убежище", "политического убежища",
    "беженец", "беженца", "беженцу", "беженцем",
    "беженцы", "беженцев", "беженцам", "беженцами",
    "статус беженца", "статуса беженца",
    "притулок", "притулку", "притулком",
    "політичний притулок", "політичного притулку",
    "біженець", "біженця", "біженцю", "біженцем",
    "біженці", "біженців", "біженцям",
    "статус біженця", "статусу біженця"]),
  ("deportation", [
    "deportation", "deport", "removal", "removal proceedings",
    "ice",
    "депортация", "депортации", "депортацию", "депортацией",
    "депортировали", "депортируют", "депортирован", "депортирована",
    "принудительное выдворение",
    "рейд", "рейды", "рейдов",
    "задержали", "задержан", "задержана", "задержание", "задержания",
    "депортація", "депортації", "депортацію", "депортацією",
    "депортували", "депортують", "депортований", "депортована",
    "затримали", "затримання", "затриманий", "затримана"]),
  ("green_card", [
    "green card", "greencard", "i-485", "adjustment of status",
    "permanent resident",
    "грин карта", "грин карту", "грин карты", "грин картой",
    "грин-карта", "грин-карту", "грин-карты", "грин-картой",
    "грін карта", "грін карту", "грін карти", "грін картою",
    "грін-карта", "грін-карту", "грін-карти"]),
  ("visa", [
    "visa", "h-1b", "h1b", "o-1", "o1",
    "eb-1", "eb1", "eb-2", "eb2", "niw",
    "consulate",
    "виза", "визу", "визы", "визой", "визе",
    "визовый", "визовая", "визовую", "визового", "визовой", "визовые",
    "рабочая виза", "рабочей визы", "рабочую визу",
    "консульство", "консульства", "консульству", "консульством", "консульстве",
    "віза", "візу", "візи", "візою", "візі", "віз",
    "візовий", "візову", "візової", "візових",
    "робоча віза", "робочої візи", "робочу візу",
    "туристична віза",
    "консульство", "консульства", "консульству", "консульством", "консульстві"]),
  ("work", [
    "work permit", "ead", "i-765", "employment authorization",
    "разрешение на работу", "разрешения на работу", "разрешению на работу",
    "дозвіл на роботу", "дозволу на роботу", "дозволом на роботу"]),
  ("family", [
    "i-130", "petition", "sponsor", "spouse", "marriage",
    "петиция", "петиции", "петицию", "петицией",
    "семейная"]),
  ("citizenship", [
    "citizenship", "naturalization", "n-400",
    "гражданство", "гражданства", "гражданству", "гражданством",
    "натурализация", "натурализации", "натурализацию", "натурализацией",
    "громадянство", "громадянства", "громадянству", "громадянством"]),
  ("tps", [
    "tps", "temporary protected status", "daca",
    "парол", "пароля", "паролю", "паролем",
    "гуманитарный пароль", "гуманитарного пароля",
    "гуманітарний пароль", "гуманітарного пароля"])]

/-- The ordered category marker table of EnglishClassifier. -/
def EN_CATEGORY_MARKERS : List (String × List String) := [
  ("asylum", ["asylum", "убежище", "притулок", "refugee", "беженец", "біженець", "persecution"]),
  ("deportation", ["deportation", "deport", "депортация", "депортація", "ice", "removal", "removal proceedings"]),
  ("green_card", ["green card", "greencard", "грин карта", "грін карта", "i-485", "adjustment of status", "permanent resident"]),
  ("visa", ["visa", "виза", "віза", "h-1b", "h1b", "o-1", "o1", "eb-1", "eb1", "eb-2", "eb2", "niw", "консул", "consulate"]),
  ("work", ["work permit", "ead", "i-765", "разрешение на работу", "дозвіл на роботу", "employment authorization"]),
  ("family", ["i-130", "petition", "sponsor", "петиция", "spouse", "marriage", "семейная"]),
  ("citizenship", ["citizenship", "naturalization", "n-400", "гражданство", "громадянство", "натурализация"]),
  ("tps", ["tps", "temporary protected status", "daca"])]

/-- Does some marker of a category of the base table match the cleaned text
(BaseClassifier cleans each marker before the word-boundary search). -/
def base_category_matches (markers : List String) (cleaned : List Char) : Bool :=
  markers.any (fun m => word_match (clean_text m.data) cleaned)

/-- Does some marker of a category of the English table match the lower-cased
text (EnglishClassifier lower-cases each marker and uses its keyword match). -/
def en_category_matches (markers : List String) (text_lower : List Char) : Bool :=
  markers.any (fun m => keyword_match (lower m.data) text_lower)

/-- First-match-wins walk over an ordered category table. -/
def detect_from (mfn : List String → List Char → Bool) :
    List (String × List String) → List Char → String
  | [], _ => "other"
  | p :: rest, t => if mfn p.2 t then p.1 else detect_from mfn rest t

/-- BaseClassifier category detection over the cleaned text. -/
def detect_category (cleaned : List Char) : String :=
  detect_from base_category_matches CATEGORY_MARKERS cleaned

/-- EnglishClassifier category detection over the lower-cased text. -/
def en_detect_category (text_lower : List Char) : String :=
  detect_from en_category_matches EN_CATEGORY_MARKERS text_lower

/-! ## English classifier (classifiers/en.py) -/

/-- EnglishClassifier configuration state; the constructor lower-cases the
configured keyword and question-marker lists, so the stored lists here are the
lower-cased ones. -/
structure EnglishClassifier where
  keywords : List (List Char)
  question_markers : List (List Char)
  min_keyword_matches : Nat
deriving Repr, DecidableEq

/-- Number of configured keywords matching the lower-cased text. -/
def en_keyword_match_count (C : EnglishClassifier) (text_lower : List Char) : Nat :=
  (C.keywords.filter (fun kw => keyword_match kw text_lower)).length

/-- EnglishClassifier keyword-stage classification. -/
def classify_keywords (C : EnglishClassifier) (text : List Char) : ClassificationResult :=
  let text_lower := lower text
  let kw := en_keyword_match_count C text_lower
  { is_relevant := decide (C.min_keyword_matches ≤ kw),
    is_question := C.question_markers.any (fun qm => py_in qm text_lower),
    category := some (en_detect_category text_lower),
    urgency := some "medium",
    summary := none,
    confidence := some (min ((kw : ℚ) * (1/5)) 1),
    method := "keywords",
    draft_response := none }

/-- EnglishClassifier.classify: keyword pre-filter, then AI verification for
matches, keeping the keyword result when the AI call yields nothing. -/
def EnglishClassifier.classify (C : EnglishClassifier) (api_key : Option String)
    (response : Option AiData) (text : List Char) : ClassificationResult :=
  if !(classify_keywords C text).is_relevant then classify_keywords C text
  else
    match call_ai api_key response with
    | none => classify_keywords C text
    | some ai => { ai with method := "hybrid" }

/-! ## Cyrillic classifier (classifiers/ru.py) -/

/-- CyrillicClassifier configuration state; the constructor cleans each
configured keyword and lower-cases each question marker, so the stored lists
here are the cleaned and lower-cased ones. -/
structure CyrillicClassifier where
  ru_keywords : List (List Char)
  ru_question_markers : List (List Char)
  uk_keywords : List (List Char)
  uk_question_markers : List (List Char)
deriving Repr, DecidableEq

/-- The language labels that extend the Russian lists with the Ukrainian ones. -/
def uk_lang (source_lang : String) : Bool :=
  source_lang == "uk" || source_lang == "uk/ru" || source_lang == "ru/uk"

/-- The keyword list in force for a language label. -/
def cyrillic_keywords (C : CyrillicClassifier) (source_lang : String) : List (List Char) :=
  C.ru_keywords ++ (if uk_lang source_lang then C.uk_keywords else [])

/-- Number of in-force keywords matching the cleaned text in the fallback. -/
def cyrillic_kw_matches (C : CyrillicClassifier) (source_lang : String)
    (cleaned : List Char) : Nat :=
  ((cyrillic_keywords C source_lang).filter (fun kw => word_match kw cleaned)).length

/-- Implicit question detection: substring containment of any in-force
question marker in the lower-cased text. -/
def has_implicit_question (C : CyrillicClassifier) (text_lower : List Char)
    (source_lang : String) : Bool :=
  (C.ru_question_markers ++
    (if uk_lang source_lang then C.uk_question_markers else [])).any
    (fun m => py_in m text_lower)

/-- CyrillicClassifier.classify: AI first, keyword heuristic only as the
fallback when the AI call yields nothing. -/
def CyrillicClassifier.classify (C : CyrillicClassifier) (api_key : Option String)
    (response : Option AiData) (text : List Char) (source_lang : String) :
    ClassificationResult :=
  match call_ai api_key response with
  | some ai => { ai with method := "ai" }
  | none =>
    { is_relevant :=
        decide (1 ≤ cyrillic_kw_matches C source_lang (clean_text text)),
      is_question := has_implicit_question C (lower text) source_lang,
      category := some
        (if 1 ≤ cyrillic_kw_matches C source_lang (clean_text text)
         then detect_category (clean_text text) else "other"),
      urgency := some "medium",
      summary := none,
      confidence := some
        (min ((cyrillic_kw_matches C source_lang (clean_text text) : ℚ) * (1/5)) 1),
      method := "keywords",
      draft_response := none }

/-! ## Classifier facade (classifiers/init module) -/

structure Classifier where
  en : EnglishClassifier
  cyrillic : CyrillicClassifier
deriving Repr, DecidableEq

/-- The language labels routed to the Cyrillic classifier. -/
def route_cyrillic (source_lang : String) : Bool :=
  source_lang == "ru" || source_lang == "uk" ||
  source_lang == "ru/uk" || source_lang == "uk/ru"

/-- Classifier.classify: route on the declared language. -/
def Classifier.classify (F : Classifier) (api_key : Option String)
    (response : Option AiData) (text : List Char) (source_lang : String) :
    ClassificationResult :=
  if route_cyrillic source_lang then
    F.cyrillic.classify api_key response text source_lang
  else F.en.classify api_key response text

/-! ## Item model (sources/base.py) and message formatting (outputs/telegram_bot.py) -/

/-- The MonitorItem dataclass. Of the open auxiliary dict only the two keys the
dispatcher and orchestrator read are modelled: `extra_location` is the location
value (default empty) and `extra_parent_title` the parent title, if present. -/
structure MonitorItem where
  id : String
  source : String
  channel : String
  title : String
  text : String
  url : String
  author : String
  created_at : Int
  language : String
  extra_location : String
  extra_parent_title : Option String
deriving Repr, DecidableEq

/-- Source emoji table with its default. -/
def source_emoji (source : String) : String :=
  if source == "reddit_post" then "🔴"
  else if source == "reddit_comment" then "💬"
  else if source == "telegram" then "✈️"
  else "📝"

/-- Urgency emoji table with its default (an absent urgency gets no emoji). -/
def urgency_emoji (urgency : Option String) : String :=
  if urgency == some "high" then "🔥"
  else if urgency == some "medium" then "⚡"
  else if urgency == some "low" then "💡"
  else ""

/-- Category label table with its default. -/
def category_label (category : Option String) : String :=
  if category == some "visa" then "🛂 Visa"
  else if category == some "asylum" then "🛡 Asylum"
  else if category == some "deportation" then "⚠️ Deportation"
  else if category == some "green_card" then "💚 Green Card"
  else if category == some "work" then "💼 Work Permit"
  else if category == some "family" then "👨‍👩‍👧 Family"
  else if category == some "citizenship" then "🇺🇸 Citizenship"
  else if category == some "tps" then "🔄 TPS/DACA"
  else "📋 Other"

/-- Location label: the Chicago special case, a generic pin, or nothing. -/
def location_label (location : String) : String :=
  if location == "Chicago, IL" then "📍 Chicago, IL ⭐"
  else if !(location == "") then "📍 " ++ location
  else ""

/-- Channel label, with parent-post context for comments (a truthy parent
title in the auxiliary dict). -/
def group_label (item : MonitorItem) : String :=
  if item.source == "reddit_comment" then
    match item.extra_parent_title with
    | some p => if p == "" then item.channel
                else item.channel ++ " (re: " ++ p.take 50 ++ ")"
    | none => item.channel
  else item.channel

/-- Text preview: the first 500 characters, with an ellipsis when truncated. -/
def preview_of (text : String) : String :=
  if decide (500 < text.length) then text.take 500 ++ "..." else text.take 500

/-- The newline join of the Python string join method. -/
def join_lines : List String → String
  | [] => ""
  | [l] => l
  | l :: ls => l ++ "\n" ++ join_lines ls

/-- The lines of the formatted message above the timestamp line. -/
def message_lines (item : MonitorItem)
    (category urgency summary draft_response : Option String) : List String :=
  let loc := location_label item.extra_location
  let head : List String := [
    source_emoji item.source ++ " **" ++ group_label item ++ "** " ++
      urgency_emoji urgency,
    "📂 " ++ category_label category ++ (if loc == "" then "" else " | " ++ loc),
    "",
    "📝 " ++ preview_of item.text,
    ""]
  let with_summary := head ++ (match summary with
    | some s => if s == "" then [] else ["📌 *" ++ s ++ "*", ""]
    | none => [])
  let with_draft := with_summary ++ (match draft_response with
    | some d => if d == "" then [] else ["✏️ **Draft response:**", d, ""]
    | none => [])
  with_draft ++ ["🔗 [Open source](" ++ item.url ++ ")"]

/-- TelegramOutput format message. The Python method reads the wall clock and
renders it as hours and minutes; that hidden input is the explicit `now_hm`
parameter here (the full rendered form, such as a 14:05 UTC stamp). -/
def format_message (item : MonitorItem)
    (category urgency summary draft_response : Option String)
    (now_hm : String) : String :=
  join_lines (message_lines item category urgency summary draft_response ++
    ["🕐 " ++ now_hm])

/-! ## Notification dispatcher (outputs/telegram_bot.py send) -/

/-- Outcome of the two transport attempts of one send: the rich-format attempt
and, on its failure, the plain-text retry. -/
structure SendNetwork where
  rich_ok : Bool
  plain_ok : Bool
deriving Repr, DecidableEq

/-- Observable outcome of one send call: the reported boolean, plus (ghost) the
message it formatted, `none` when the rate-limit check skipped before any
formatting. -/
structure SendOutcome where
  sent : Bool
  formatted : Option String
deriving Repr, DecidableEq

/-- A UTC wall-clock reading, to the second; the microseconds of the Python
clock are passed separately where a rendering needs them. -/
structure UtcTime where
  year : Nat
  month : Nat
  day : Nat
  hour : Nat
  minute : Nat
  second : Nat
deriving Repr, DecidableEq

def pad2 (n : Nat) : String := if n < 10 then "0" ++ toString n else toString n

def pad4 (n : Nat) : String :=
  if n < 10 then "000" ++ toString n
  else if n < 100 then "00" ++ toString n
  else if n < 1000 then "0" ++ toString n
  else toString n

def pad6 (n : Nat) : String :=
  if n < 10 then "00000" ++ toString n
  else if n < 100 then "0000" ++ toString n
  else if n < 1000 then "000" ++ toString n
  else if n < 10000 then "00" ++ toString n
  else if n < 100000 then "0" ++ toString n
  else toString n

def date_str (t : UtcTime) : String :=
  pad4 t.year ++ ("-" ++ (pad2 t.month ++ ("-" ++ pad2 t.day)))

def time_str (t : UtcTime) : String :=
  pad2 t.hour ++ (":" ++ (pad2 t.minute ++ (":" ++ pad2 t.second)))

/-- The text sqlite stores for CURRENT_TIMESTAMP: date and time separated by a
space. This is what the notification-log sent-at column holds. -/
def sqlite_current_timestamp (t : UtcTime) : String :=
  date_str t ++ (" " ++ time_str t)

/-- The text the Python isoformat method renders: date and time separated by
the letter T, with a six-digit microsecond field when it is nonzero. This is
the query parameter the store receives for the one-hour cutoff. -/
def py_isoformat (t : UtcTime) (microsecond : Nat) : String :=
  date_str t ++ ("T" ++ (time_str t ++
    (if microsecond == 0 then "" else "." ++ pad6 microsecond)))

/-- Byte-wise text comparison, as sqlite BINARY collation compares two TEXT
values (all characters involved are ASCII, so byte order is character order). -/
def text_lt : List Char → List Char → Bool
  | [], [] => false
  | [], _ :: _ => true
  | _ :: _, [] => false
  | a :: as, b :: bs =>
    if a.toNat < b.toNat then true
    else if b.toNat < a.toNat then false
    else text_lt as bs

/-- Database.get_notifications_count_last_hour at the SQL text level: the
stored sent-at texts (sqlite CURRENT_TIMESTAMP renderings) are counted when
they compare above the isoformat rendering of one hour before now. The mixed
formats make this a string comparison between a space-separated and a
T-separated timestamp. -/
def get_notifications_count_last_hour (log : List String)
    (hour_ago_iso : String) : Nat :=
  (log.filter (fun s => text_lt hour_ago_iso.data s.data)).length

/-- Seconds since midnight of a wall-clock reading (used to state that a send
lies inside the rolling one-hour window of a same-day query). -/
def seconds_of_day (t : UtcTime) : Nat :=
  t.hour * 3600 + t.minute * 60 + t.second

/-- TelegramOutput.send: the rolling-hour count is queried first, and at or
above the ceiling the call returns not-sent without formatting or sending;
otherwise the message is formatted and the send succeeds if either transport
attempt does. The store is represented by the sent-at texts of its
notification log, and the cutoff by the isoformat parameter the code passes.
(The orchestrator always passes a live store.) -/
def TelegramOutput.send (max_per_hour : Nat) (net : SendNetwork)
    (item : MonitorItem) (result : ClassificationResult) (log : List String)
    (hour_ago_iso : String) (now_hm : String) : SendOutcome :=
  if decide (max_per_hour ≤ get_notifications_count_last_hour log hour_ago_iso) then
    ⟨false, none⟩
  else
    ⟨net.rich_ok || net.plain_ok,
     some (format_message item result.category result.urgency result.summary
            result.draft_response now_hm)⟩

/-- The dispatcher-side loop of the rate-limit scenario: each eligible item is
offered to send at its wall-clock instant, and on success the orchestrator
marks it notified, appending the CURRENT_TIMESTAMP text to the log. -/
def run_eligible (max_per_hour : Nat) (net : SendNetwork)
    (hour_ago_iso : String) (now_hm : String) (result : ClassificationResult) :
    List (MonitorItem × UtcTime) → List String → List String
  | [], log => log
  | (it, t) :: rest, log =>
    run_eligible max_per_hour net hour_ago_iso now_hm result rest
      (if (TelegramOutput.send max_per_hour net it result log hour_ago_iso
            now_hm).sent
       then log ++ [sqlite_current_timestamp t] else log)

/-! ## Orchestrator (main.py) -/

/-- The serialized classification stored with a processed item (main.py builds
it with json.dumps over five keys in this order; JSON string escaping is not
modelled, and no claim depends on the serialized form). -/
def json_opt_str (s : Option String) : String :=
  match s with
  | none => "null"
  | some v => "\"" ++ v ++ "\""

def json_bool (b : Bool) : String := if b then "true" else "false"

def classification_json (result : ClassificationResult) (location : String) : String :=
  "\x7b\"is_relevant\": " ++ json_bool result.is_relevant ++
  ", \"is_question\": " ++ json_bool result.is_question ++
  ", \"category\": " ++ json_opt_str result.category ++
  ", \"urgency\": " ++ json_opt_str result.urgency ++
  ", \"location\": \"" ++ location ++ "\"\x7d"

/-- The orchestrator configuration read in process_source. -/
structure MonitorConfig where
  min_text_length : Nat
deriving Repr, DecidableEq

/-- A configured output as the orchestrator sees it: a send call that may read
the store and reports whether it sent. -/
def OutputFn : Type := MonitorItem → ClassificationResult → Database → Bool

/-- The dispatch loop of process_source: try outputs in order, mark notified
and stop at the first output reporting success. -/
def dispatch (outputs : List OutputFn) (item : MonitorItem)
    (result : ClassificationResult) (now : Int) (db : Database) : Database :=
  match outputs with
  | [] => db
  | o :: rest =>
    if o item result db then db.mark_notified now item.id
    else dispatch rest item result now db

/-- One fetched item of a pass together with the classification the classifier
returns for it (the classifier is modelled as an input, as it depends on the
external AI outcome). -/
structure ItemStep where
  item : MonitorItem
  result : ClassificationResult
deriving Repr

/-- The per-item body of process_source: skip the already-processed, record
short items without classifying, otherwise record with the classification and
dispatch when actionable. -/
def process_one (cfg : MonitorConfig) (outputs : List OutputFn) (now : Int)
    (db : Database) (step : ItemStep) : Database :=
  if db.is_processed step.item.id then db
  else if decide (step.item.text.length < cfg.min_text_length) then
    db.mark_processed now step.item.id step.item.source step.item.channel
      step.item.text step.item.url none
  else
    let cj := classification_json step.result step.item.extra_location
    let db1 := db.mark_processed now step.item.id step.item.source
      step.item.channel step.item.text step.item.url (some cj)
    if step.result.is_relevant &&
       (step.result.is_question || step.item.source == "telegram_channel") then
      dispatch outputs step.item step.result now db1
    else db1

/-- ImmigrationMonitor.process_source over one fetched batch (a failed fetch is
the empty batch). -/
def process_source (cfg : MonitorConfig) (outputs : List OutputFn) (now : Int)
    (db : Database) (items : List ItemStep) : Database :=
  items.foldl (process_one cfg outputs now) db

/-- One pass of the orchestrator with everything the environment contributes
to it. -/
structure PassInput where
  cfg : MonitorConfig
  outputs : List OutputFn
  now : Int
  items : List ItemStep

/-- Any number of passes in sequence. -/
def runPasses (passes : List PassInput) (db : Database) : Database :=
  passes.foldl (fun db p => process_source p.cfg p.outputs p.now db p.items) db

/-- ImmigrationMonitor.run_once: process every configured source, then clean up
old records exactly once. -/
def run_once (cfg : MonitorConfig) (outputs : List OutputFn) (now : Int)
    (sources : List (List ItemStep)) (db : Database) : Database :=
  Database.cleanup_old_records
    (sources.foldl (fun db items => process_source cfg outputs now db items) db)
    now 30

/-- One configured source inside the run-forever loop: its interval, the time
of its last run, and what its fetch returns this iteration. -/
structure SchedSource where
  interval : Int
  last_run : Int
  items : List ItemStep

/-- One iteration of the while body of ImmigrationMonitor.run_forever: each
source whose interval has elapsed is processed and its last-run time reset; the
loop body contains no record cleanup. Returns the store and the new last-run
times. -/
def run_forever_iter (cfg : MonitorConfig) (outputs : List OutputFn) (now : Int)
    (srcs : List SchedSource) (db : Database) : Database × List Int :=
  srcs.foldl (fun acc s =>
    if decide (s.interval ≤ now - s.last_run) then
      (process_source cfg outputs now acc.1 s.items, acc.2 ++ [now])
    else (acc.1, acc.2 ++ [s.last_run])) (db, [])

/-- Arguments of one mark-processed call (claim C2). -/
structure MarkArgs where
  now : Int
  source : String
  group_name : String
  text_preview : String
  url : String
  classification : Option String
deriving Repr, DecidableEq

/-- Apply one mark-processed call for a fixed id. -/
def apply_mark (item_id : String) (db : Database) (a : MarkArgs) : Database :=
  db.mark_processed a.now item_id a.source a.group_name a.text_preview a.url
    a.classification

/-- The record the first mark-processed call stores. -/
def record_of (a : MarkArgs) : ProcessedRecord :=
  ⟨a.source, a.group_name, a.text_preview.take 500, a.url, a.classification,
   a.now, false⟩

/-! ## Sample values used by concrete witnesses and counterexamples -/

def sample_item : MonitorItem :=
  ⟨"a1", "reddit_post", "r/immigration", "t", "Need help with a visa interview",
   "https://reddit.com/x", "u", 0, "en", "", none⟩

def sample_result : ClassificationResult :=
  ⟨true, true, some "visa", some "medium", none, none, "keywords", none⟩

def sample_step : ItemStep := ⟨sample_item, sample_result⟩

def sample_cfg : MonitorConfig := ⟨30⟩

def sample_record : ProcessedRecord :=
  ⟨"reddit_post", "r/immigration", "text", "https://reddit.com/x", none, 0, false⟩

def sample_db : Database := ⟨[("a1", sample_record)], [], 0, []⟩

def sample_mark : MarkArgs := ⟨0, "reddit_post", "r/immigration", "text", "u", none⟩

def sample_mark2 : MarkArgs := ⟨7, "telegram", "grp", "other text", "u2", some "cls"⟩

def sample_classifier : Classifier := ⟨⟨[], [], 1⟩, ⟨[], [], [], []⟩⟩

def sample_en : EnglishClassifier := ⟨[("visa").data], [], 1⟩

def sample_cyrillic : CyrillicClassifier := ⟨[("виза").data], [], [], []⟩

/-- An AI response carrying an explicit JSON null for category and urgency. -/
def null_ai_response : AiData := ⟨none, none, some none, some none, none, none, none⟩

/-- The notification invariant of claim C1: every item id has been the subject
of at most one mark-notified invocation ever, and an id that has been notified
is recorded as processed (so later passes skip it before any dispatch). -/
def SendInv (db : Database) : Prop :=
  ∀ id, sendCount id db ≤ 1 ∧ (1 ≤ sendCount id db → db.is_processed id = true)

/-! ## Generic list helpers -/

theorem length_filter_append_one {α : Type} (p : α → Bool) (l : List α) (x : α) :
    ((l ++ [x]).filter p).length =
      (l.filter p).length + (if p x then 1 else 0) := by
  rw [List.filter_append]
  cases h : p x <;> simp [List.filter_cons, h]

theorem filter_all_true {α : Type} (p : α → Bool) (l : List α)
    (h : ∀ a ∈ l, p a = true) : l.filter p = l := by
  induction l with
  | nil => rfl
  | cons a l ih =>
    have ha := h a (List.mem_cons_self a l)
    rw [List.filter_cons, if_pos ha, ih (fun b hb => h b (List.mem_cons_of_mem a hb))]

theorem length_filter_pos_iff {α : Type} (p : α → Bool) (l : List α) :
    0 < (l.filter p).length ↔ ∃ a ∈ l, p a = true := by
  induction l with
  | nil => simp
  | cons a l ih =>
    cases h : p a with
    | true => simp [List.filter_cons, h]
    | false => simp [List.filter_cons, h, ih]

/-! ## Claim C10: housekeeping frequency -/

theorem cleanups_mark_processed (db : Database) (now : Int) (i s g t u : String)
    (c : Option String) : (db.mark_processed now i s g t u c).cleanups = db.cleanups := by
  unfold Database.mark_processed
  split <;> rfl

theorem cleanups_mark_notified (db : Database) (now : Int) (i : String) :
    (db.mark_notified now i).cleanups = db.cleanups := rfl

theorem cleanups_dispatch (outputs : List OutputFn) (item : MonitorItem)
    (result : ClassificationResult) (now : Int) (db : Database) :
    (dispatch outputs item result now db).cleanups = db.cleanups := by
  induction outputs with
  | nil => rfl
  | cons o rest ih =>
    unfold dispatch
    split
    · exact cleanups_mark_notified db now item.id
    · exact ih

theorem cleanups_process_one (cfg : MonitorConfig) (outputs : List OutputFn)
    (now : Int) (db : Database) (s : ItemStep) :
    (process_one cfg outputs now db s).cleanups = db.cleanups := by
  unfold process_one
  split
  · rfl
  · split
    · exact cleanups_mark_processed ..
    · split
      · rw [cleanups_dispatch, cleanups_mark_processed]
      · exact cleanups_mark_processed ..

theorem cleanups_process_source (cfg : MonitorConfig) (outputs : List OutputFn)
    (now : Int) (items : List ItemStep) (db : Database) :
    (process_source cfg outputs now db items).cleanups = db.cleanups := by
  induction items generalizing db with
  | nil => rfl
  | cons s rest ih =>
    show (process_source cfg outputs now (process_one cfg outputs now db s) rest).cleanups = _
    rw [ih, cleanups_process_one]

theorem cleanups_fold_sources (cfg : MonitorConfig) (outputs : List OutputFn)
    (now : Int) (sources : List (List ItemStep)) (db : Database) :
    (sources.foldl (fun db items => process_source cfg outputs now db items) db).cleanups
      = db.cleanups := by
  induction sources generalizing db with
  | nil => rfl
  | cons items rest ih => rw [List.foldl_cons, ih, cleanups_process_source]

/-- C10 counterexample: one iteration of the run-forever scheduling loop, in
which a due source is fetched and processed, performs zero invocations of the
record cleanup, contradicting the claim that housekeeping runs once per
iteration of the run-forever loop. -/
theorem C10_counterexample :
    (run_forever_iter sample_cfg [] 1000 [⟨60, 0, [sample_step]⟩]
      Database.empty).1.cleanups = 0 := by
  rfl

/-- C10 (amended): housekeeping (the record cleanup) runs exactly once per
run-once cycle pass — after all sources are processed, not once per source,
whatever the number of sources — while an iteration of the run-forever
scheduling loop performs no housekeeping at all. -/
theorem C10_housekeeping_once_per_run_once :
    (∀ (cfg : MonitorConfig) (outputs : List OutputFn) (now : Int)
       (sources : List (List ItemStep)) (db : Database),
       (run_once cfg outputs now sources db).cleanups = db.cleanups + 1)
    ∧ (∀ (cfg : MonitorConfig) (outputs : List OutputFn) (now : Int)
       (srcs : List SchedSource) (db : Database),
       (run_forever_iter cfg outputs now srcs db).1.cleanups = db.cleanups) := by
  constructor
  · intro cfg outputs now sources db
    show (Database.cleanup_old_records _ _ _).cleanups = _
    unfold Database.cleanup_old_records
    simp [cleanups_fold_sources]
  · intro cfg outputs now srcs db
    suffices h : ∀ (acc : Database × List Int),
        (srcs.foldl (fun acc s =>
          if decide (s.interval ≤ now - s.last_run) then
            (process_source cfg outputs now acc.1 s.items, acc.2 ++ [now])
          else (acc.1, acc.2 ++ [s.last_run])) acc).1.cleanups = acc.1.cleanups by
      exact h (db, [])
    induction srcs with
    | nil => intro acc; rfl
    | cons s rest ih =>
      intro acc
      rw [List.foldl_cons]
      split
      · rw [ih]; exact cleanups_process_source ..
      · exact ih _

/-! ## Claim C4: mark-notified on a missing record -/

theorem find_key_cons (a : String × ProcessedRecord)
    (l : List (String × ProcessedRecord)) (id : String) :
    (a :: l).find? (fun p => p.1 == id) =
      if a.1 == id then some a else l.find? (fun p => p.1 == id) := by
  cases h : a.1 == id <;> simp [List.find?, h]

theorem keys_all_ne_of_absent (db : Database) (id : String)
    (h : db.is_processed id = false) :
    ∀ p ∈ db.processed_items, (p.1 == id) = false := by
  intro p hp
  have h2 : db.processed_items.any (fun q => q.1 == id) = false := h
  have h3 := List.any_eq_false.mp h2 p hp
  simpa using h3

theorem map_notified_of_absent (l : List (String × ProcessedRecord)) (id : String)
    (h : ∀ p ∈ l, (p.1 == id) = false) :
    l.map (fun p =>
      if p.1 == id then (p.1, { p.2 with notified := true }) else p) = l := by
  induction l with
  | nil => rfl
  | cons p l ih =>
    have hp := h p (List.mem_cons_self p l)
    rw [List.map_cons, ih (fun q hq => h q (List.mem_cons_of_mem p hq))]
    congr 1
    exact if_neg (by simp [hp])

theorem find_map_notified (l : List (String × ProcessedRecord)) (id : String)
    (r : ProcessedRecord)
    (h : (l.find? (fun p => p.1 == id)).map (fun p => p.2) = some r) :
    ((l.map (fun p =>
        if p.1 == id then (p.1, { p.2 with notified := true }) else p)).find?
      (fun p => p.1 == id)).map (fun p => p.2) =
      some { r with notified := true } := by
  induction l with
  | nil => simp [List.find?] at h
  | cons p l ih =>
    cases hp : p.1 == id with
    | true =>
      rw [find_key_cons, if_pos hp] at h
      simp only [Option.map_some'] at h
      rw [List.map_cons, if_pos hp, find_key_cons]
      simp only [if_pos hp, Option.map_some']
      obtain rfl : p.2 = r := Option.some.inj h
      rfl
    | false =>
      rw [find_key_cons, if_neg (by simp [hp])] at h
      rw [List.map_cons, if_neg (by simp [hp]), find_key_cons,
        if_neg (by simp [hp])]
      exact ih h

/-- C4 counterexample: the store mark-notified call on an id with no processed
record does not fail; it silently succeeds, leaves the processed records
unchanged, and still appends a notification-log entry — contradicting the
claimed NotFoundError and the claimed absence of a log append. -/
theorem C4_counterexample :
    (Database.empty.mark_notified 5 "x").notification_log = [⟨"x", 5⟩]
    ∧ (Database.empty.mark_notified 5 "x").processed_items = []
    ∧ Database.empty.is_processed "x" = false := by
  exact ⟨rfl, rfl, rfl⟩

/-- C4 (amended): mark-notified never fails. On an id with no processed record
it silently succeeds: the processed records are unchanged and a notification
log entry is still appended. On an existing record it sets the notified flag
and appends exactly one log entry. -/
theorem C4_mark_notified_total (db : Database) (now : Int) (id : String) :
    (db.is_processed id = false →
      (db.mark_notified now id).processed_items = db.processed_items)
    ∧ (db.mark_notified now id).notification_log =
        db.notification_log ++ [⟨id, now⟩]
    ∧ (∀ r, db.lookup_record id = some r →
        (db.mark_notified now id).lookup_record id =
          some { r with notified := true }) := by
  refine ⟨?_, rfl, ?_⟩
  · intro h
    exact map_notified_of_absent db.processed_items id
      (keys_all_ne_of_absent db id h)
  · intro r hr
    exact find_map_notified db.processed_items id r hr

theorem C4_witness :
    ((Database.empty.mark_notified 3 "x").processed_items =
      Database.empty.processed_items)
    ∧ ((sample_db.mark_notified 3 "a1").lookup_record "a1" =
        some { sample_record with notified := true }) := by
  exact ⟨(C4_mark_notified_total Database.empty 3 "x").1 rfl,
         (C4_mark_notified_total sample_db 3 "a1").2.2 sample_record rfl⟩

/-! ## Claim C2: idempotent mark-processed -/

theorem mark_processed_of_present (db : Database) (a : MarkArgs) (id : String)
    (h : db.is_processed id = true) : apply_mark id db a = db := by
  unfold apply_mark Database.mark_processed
  rw [if_pos h]

theorem is_processed_apply_mark (db : Database) (a : MarkArgs) (id : String)
    (h : db.is_processed id = false) :
    (apply_mark id db a).is_processed id = true := by
  unfold apply_mark Database.mark_processed
  rw [if_neg (by simp [h])]
  unfold Database.is_processed
  simp

theorem foldl_apply_mark_fixed (id : String) (rest : List MarkArgs) (db : Database)
    (h : db.is_processed id = true) :
    List.foldl (apply_mark id) db rest = db := by
  induction rest with
  | nil => rfl
  | cons a rest ih =>
    rw [List.foldl_cons, mark_processed_of_present db a id h]
    exact ih

theorem find_append_absent (l : List (String × ProcessedRecord)) (id : String)
    (x : String × ProcessedRecord) (hx : (x.1 == id) = true)
    (h : ∀ p ∈ l, (p.1 == id) = false) :
    (l ++ [x]).find? (fun p => p.1 == id) = some x := by
  induction l with
  | nil => simp [List.find?, hx]
  | cons p l ih =>
    rw [List.cons_append, find_key_cons,
      if_neg (by simp [h p (List.mem_cons_self p l)])]
    exact ih (fun q hq => h q (List.mem_cons_of_mem p hq))

/-- C2: for every id, an arbitrary sequence of mark-processed calls starting
from a store not containing the id leaves exactly one record for that id; every
call after the first is a complete no-op (the whole store value is unchanged,
so a repeat call is not an error), and the record stored is the one of the
first call, never overwritten. -/
theorem C2_mark_processed_idempotent (item_id : String) (db : Database)
    (a : MarkArgs) (rest : List MarkArgs) (h : db.is_processed item_id = false) :
    List.foldl (apply_mark item_id) db (a :: rest) = apply_mark item_id db a
    ∧ record_count item_id (apply_mark item_id db a) = 1 + record_count item_id db
    ∧ (apply_mark item_id db a).lookup_record item_id = some (record_of a) := by
  refine ⟨?_, ?_, ?_⟩
  · rw [List.foldl_cons]
    exact foldl_apply_mark_fixed item_id rest _ (is_processed_apply_mark db a item_id h)
  · unfold record_count apply_mark Database.mark_processed
    rw [if_neg (by simp [h])]
    simp only
    rw [length_filter_append_one]
    simp
    omega
  · unfold apply_mark Database.mark_processed Database.lookup_record
    rw [if_neg (by simp [h])]
    simp only
    rw [find_append_absent db.processed_items item_id _ (by simp)
      (keys_all_ne_of_absent db item_id h)]
    rfl

theorem C2_witness :
    Database.empty.is_processed "a1" = false
    ∧ List.foldl (apply_mark "a1") Database.empty [sample_mark, sample_mark2]
        = apply_mark "a1" Database.empty sample_mark
    ∧ record_count "a1" (apply_mark "a1" Database.empty sample_mark)
        = 1 + record_count "a1" Database.empty
    ∧ (apply_mark "a1" Database.empty sample_mark).lookup_record "a1"
        = some (record_of sample_mark) := by
  have h := C2_mark_processed_idempotent "a1" Database.empty sample_mark
    [sample_mark2] rfl
  exact ⟨rfl, h.1, h.2.1, h.2.2⟩

/-! ## Claim C9: formatting determinism -/

theorem string_append_left_cancel (s t u : String) (h : s ++ t = s ++ u) :
    t = u := by
  obtain ⟨ld⟩ := s
  obtain ⟨lt⟩ := t
  obtain ⟨lu⟩ := u
  have h2 : String.mk (ld ++ lt) = String.mk (ld ++ lu) := h
  have h3 : ld ++ lt = ld ++ lu := by
    injection h2
  exact congrArg String.mk (List.append_cancel_left h3)

theorem join_lines_concat (x : String) (ls : List String) (l : String) :
    join_lines ((x :: ls) ++ [l]) = join_lines (x :: ls) ++ "\n" ++ l := by
  induction ls generalizing x with
  | nil => rfl
  | cons y ls ih =>
    show x ++ "\n" ++ join_lines ((y :: ls) ++ [l]) = _
    rw [ih y]
    show _ = x ++ "\n" ++ join_lines (y :: ls) ++ "\n" ++ l
    rw [String.append_assoc (x ++ "\n"), String.append_assoc (x ++ "\n")]

theorem message_lines_shape (item : MonitorItem)
    (category urgency summary draft_response : Option String) :
    ∃ ls, message_lines item category urgency summary draft_response =
      (source_emoji item.source ++ " **" ++ group_label item ++ "** " ++
        urgency_emoji urgency) :: ls := by
  exact ⟨_, rfl⟩

theorem format_message_decomposition (item : MonitorItem)
    (category urgency summary draft_response : Option String) (now_hm : String) :
    format_message item category urgency summary draft_response now_hm =
      join_lines (message_lines item category urgency summary draft_response) ++
        "\n" ++ ("🕐 " ++ now_hm) := by
  obtain ⟨ls, hls⟩ := message_lines_shape item category urgency summary draft_response
  unfold format_message
  rw [hls, join_lines_concat]

theorem format_clock_inj (item : MonitorItem)
    (category urgency summary draft_response : Option String) (t1 t2 : String)
    (h : format_message item category urgency summary draft_response t1 =
      format_message item category urgency summary draft_response t2) : t1 = t2 := by
  rw [format_message_decomposition, format_message_decomposition] at h
  have h2 := string_append_left_cancel _ _ _ h
  exact string_append_left_cancel _ _ _ h2

/-- C9 counterexample: two invocations of message formatting with the same
item and the same classification, at two wall-clock minutes, produce different
formatted texts — the formatted message embeds the reading of the clock taken
inside the formatter, so formatting is not a pure function of the item and the
classification alone. -/
theorem C9_counterexample :
    format_message sample_item (some "visa") (some "medium") none none
        "00:00 UTC" ≠
      format_message sample_item (some "visa") (some "medium") none none
        "00:01 UTC" := by
  intro h
  have h2 := format_clock_inj sample_item (some "visa") (some "medium")
    none none "00:00 UTC" "00:01 UTC" h
  exact absurd h2 (by decide)

/-- C9 (amended): formatting is a pure, deterministic function of the item,
the classification and the formatted wall-clock minute read during the call;
for a fixed item and classification two invocations produce identical text
exactly when the clock rendered identically, and the clock reading enters the
output only through the trailing timestamp line. -/
theorem C9_format_deterministic_given_clock (item : MonitorItem)
    (category urgency summary draft_response : Option String) (t1 t2 : String) :
    format_message item category urgency summary draft_response t1 =
      format_message item category urgency summary draft_response t2 ↔ t1 = t2 := by
  constructor
  · exact format_clock_inj item category urgency summary draft_response t1 t2
  · intro h
    rw [h]

theorem C9_witness :
    (format_message sample_item (some "visa") (some "medium") none none
        "00:00 UTC" =
      format_message sample_item (some "visa") (some "medium") none none
        "00:00 UTC") ↔ ("00:00 UTC" : String) = "00:00 UTC" := by
  exact C9_format_deterministic_given_clock sample_item (some "visa")
    (some "medium") none none "00:00 UTC" "00:00 UTC"

/-! ## Claim C7: category and urgency presence -/

theorem pyGet_isSome {α : Type} (f : Option (Option α)) (d : α)
    (h : f ≠ some none) : (pyGet f d).isSome = true := by
  cases f with
  | none => rfl
  | some v =>
    cases v with
    | none => exact absurd rfl h
    | some x => rfl

theorem call_ai_some_inv (key : Option String) (resp : Option AiData)
    (ai : ClassificationResult) (h : call_ai key resp = some ai) :
    ∃ d, resp = some d ∧ ai.category = pyGet d.category "other"
      ∧ ai.urgency = pyGet d.urgency "medium" := by
  cases key with
  | none => simp [call_ai] at h
  | some k =>
    by_cases hk : (k == "" || k == "YOUR_ANTHROPIC_API_KEY") = true
    · simp [call_ai, hk] at h
    · cases resp with
      | none => simp [call_ai, hk] at h
      | some d =>
        simp only [call_ai, if_neg hk, Option.some.injEq] at h
        exact ⟨d, rfl, by rw [← h], by rw [← h]⟩

theorem en_classify_of_ai_none (C : EnglishClassifier) (key : Option String)
    (resp : Option AiData) (text : List Char) (hai : call_ai key resp = none) :
    EnglishClassifier.classify C key resp text = classify_keywords C text := by
  unfold EnglishClassifier.classify
  rw [hai]
  split <;> rfl

/-- C7 counterexample: an AI response whose JSON carries an explicit null for
category and urgency flows through the dict get defaults unchanged, so the
classifier facade returns a ClassificationResult with null category and null
urgency — contradicting the claim for every availability/response of the
verification capability. -/
theorem C7_counterexample :
    (Classifier.classify sample_classifier (some "k") (some null_ai_response)
      [] "ru").category = none
    ∧ (Classifier.classify sample_classifier (some "k") (some null_ai_response)
      [] "ru").urgency = none := by
  exact ⟨rfl, rfl⟩

/-- C7 (amended): every ClassificationResult returned by the classifier facade
has a non-null category and a non-null urgency — even when isRelevant is false
— provided the AI response, when one arrives, does not carry an explicit JSON
null in its category or urgency field; every keyword and fallback path yields
them unconditionally. -/
theorem C7_category_urgency_nonnull (F : Classifier) (key : Option String)
    (resp : Option AiData) (text : List Char) (lang : String)
    (hcat : ∀ d, resp = some d → d.category ≠ some none)
    (hurg : ∀ d, resp = some d → d.urgency ≠ some none) :
    (F.classify key resp text lang).category.isSome = true
    ∧ (F.classify key resp text lang).urgency.isSome = true := by
  unfold Classifier.classify
  split
  · unfold CyrillicClassifier.classify
    cases hai : call_ai key resp with
    | none => exact ⟨rfl, rfl⟩
    | some ai =>
      obtain ⟨d, hd, hc, hu⟩ := call_ai_some_inv key resp ai hai
      constructor
      · show ai.category.isSome = true
        rw [hc]
        exact pyGet_isSome _ _ (hcat d hd)
      · show ai.urgency.isSome = true
        rw [hu]
        exact pyGet_isSome _ _ (hurg d hd)
  · unfold EnglishClassifier.classify
    cases hai : call_ai key resp with
    | none =>
      refine ⟨?_, ?_⟩ <;> split <;> rfl
    | some ai =>
      obtain ⟨d, hd, hc, hu⟩ := call_ai_some_inv key resp ai hai
      have hcs : ai.category.isSome = true := by
        rw [hc]; exact pyGet_isSome _ _ (hcat d hd)
      have hus : ai.urgency.isSome = true := by
        rw [hu]; exact pyGet_isSome _ _ (hurg d hd)
      refine ⟨?_, ?_⟩ <;> split
      · rfl
      · exact hcs
      · rfl
      · exact hus

theorem C7_witness :
    (Classifier.classify sample_classifier none none (("visa question").data)
      "en").category.isSome = true
    ∧ (Classifier.classify sample_classifier none none (("visa question").data)
      "en").urgency.isSome = true := by
  exact C7_category_urgency_nonnull sample_classifier none none
    (("visa question").data) "en" (fun d h => nomatch h) (fun d h => nomatch h)

/-! ## Claim C6: fallback relevance when the AI is unavailable -/

/-- C6: whenever the AI call yields nothing (no credential or a failed or
unparseable call), the English classifier reports relevance exactly when the
keyword-match count reaches the configured minimum, and the Cyrillic
classifier reports relevance exactly when at least one in-force keyword
matches as a whole word in the cleaned text. -/
theorem C6_fallback_relevance :
    (∀ (C : EnglishClassifier) (key : Option String) (resp : Option AiData)
       (text : List Char), call_ai key resp = none →
       ((EnglishClassifier.classify C key resp text).is_relevant = true ↔
         C.min_keyword_matches ≤ en_keyword_match_count C (lower text)))
    ∧ (∀ (C : CyrillicClassifier) (key : Option String) (resp : Option AiData)
       (text : List Char) (lang : String), call_ai key resp = none →
       ((CyrillicClassifier.classify C key resp text lang).is_relevant = true ↔
         ∃ kw ∈ cyrillic_keywords C lang,
           word_match kw (clean_text text) = true)) := by
  constructor
  · intro C key resp text hai
    rw [en_classify_of_ai_none C key resp text hai]
    show decide (C.min_keyword_matches ≤ en_keyword_match_count C (lower text))
      = true ↔ _
    exact ⟨of_decide_eq_true, decide_eq_true⟩
  · intro C key resp text lang hai
    unfold CyrillicClassifier.classify
    rw [hai]
    show decide (1 ≤ cyrillic_kw_matches C lang (clean_text text)) = true ↔ _
    exact Iff.trans ⟨of_decide_eq_true, decide_eq_true⟩
      (length_filter_pos_iff _ _)

theorem C6_witness :
    call_ai none none = none
    ∧ ((EnglishClassifier.classify sample_en none none
        (("visa question").data)).is_relevant = true ↔
        sample_en.min_keyword_matches ≤
          en_keyword_match_count sample_en (lower (("visa question").data)))
    ∧ ((CyrillicClassifier.classify sample_cyrillic none none
        (("нужна виза").data) "ru").is_relevant = true ↔
        ∃ kw ∈ cyrillic_keywords sample_cyrillic "ru",
          word_match kw (clean_text (("нужна виза").data)) = true) := by
  exact ⟨rfl,
    C6_fallback_relevance.1 sample_en none none (("visa question").data) rfl,
    C6_fallback_relevance.2 sample_cyrillic none none (("нужна виза").data)
      "ru" rfl⟩

/-! ## Claim C5: category priority, first match wins -/

theorem detect_from_first (mfn : List String → List Char → Bool)
    (pairs : List (String × List String)) (t : List Char) (i : Nat)
    (hi : i < pairs.length)
    (hmatch : mfn (pairs.get ⟨i, hi⟩).2 t = true)
    (hbefore : ∀ j (hj : j < pairs.length), j < i →
      mfn (pairs.get ⟨j, hj⟩).2 t = false) :
    detect_from mfn pairs t = (pairs.get ⟨i, hi⟩).1 := by
  induction pairs generalizing i with
  | nil => exact absurd hi (Nat.not_lt_zero i)
  | cons p rest ih =>
    cases i with
    | zero =>
      have hm : mfn p.2 t = true := hmatch
      show (if mfn p.2 t then p.1 else detect_from mfn rest t) = p.1
      rw [if_pos hm]
    | succ n =>
      have hp0 : mfn p.2 t = false :=
        hbefore 0 (Nat.zero_lt_succ rest.length) (Nat.zero_lt_succ n)
      show (if mfn p.2 t then p.1 else detect_from mfn rest t) = _
      rw [if_neg (by simp [hp0])]
      exact ih n (Nat.lt_of_succ_lt_succ hi) hmatch
        (fun j hj hji => hbefore (j + 1) (Nat.succ_lt_succ hj)
          (Nat.succ_lt_succ hji))

theorem detect_from_none (mfn : List String → List Char → Bool)
    (pairs : List (String × List String)) (t : List Char)
    (h : ∀ p ∈ pairs, mfn p.2 t = false) : detect_from mfn pairs t = "other" := by
  induction pairs with
  | nil => rfl
  | cons p rest ih =>
    show (if mfn p.2 t then p.1 else detect_from mfn rest t) = _
    rw [if_neg (by simp [h p (List.mem_cons_self p rest)])]
    exact ih (fun q hq => h q (List.mem_cons_of_mem p hq))

/-- C5: category detection walks the fixed ordered table and returns the
category of the first (earliest) entry with a matching whole-word marker,
wherever the markers occur in the text, and returns the other label when no
entry matches — for the base table over cleaned text and for the English table
over lower-cased text alike. -/
theorem C5_category_priority :
    (∀ (cleaned : List Char) (i : Nat) (hi : i < CATEGORY_MARKERS.length),
      base_category_matches (CATEGORY_MARKERS.get ⟨i, hi⟩).2 cleaned = true →
      (∀ j (hj : j < CATEGORY_MARKERS.length), j < i →
        base_category_matches (CATEGORY_MARKERS.get ⟨j, hj⟩).2 cleaned = false) →
      detect_category cleaned = (CATEGORY_MARKERS.get ⟨i, hi⟩).1)
    ∧ (∀ (cleaned : List Char),
      (∀ p ∈ CATEGORY_MARKERS, base_category_matches p.2 cleaned = false) →
      detect_category cleaned = "other")
    ∧ (∀ (text_lower : List Char) (i : Nat) (hi : i < EN_CATEGORY_MARKERS.length),
      en_category_matches (EN_CATEGORY_MARKERS.get ⟨i, hi⟩).2 text_lower = true →
      (∀ j (hj : j < EN_CATEGORY_MARKERS.length), j < i →
        en_category_matches (EN_CATEGORY_MARKERS.get ⟨j, hj⟩).2 text_lower = false) →
      en_detect_category text_lower = (EN_CATEGORY_MARKERS.get ⟨i, hi⟩).1)
    ∧ (∀ (text_lower : List Char),
      (∀ p ∈ EN_CATEGORY_MARKERS, en_category_matches p.2 text_lower = false) →
      en_detect_category text_lower = "other") := by
  refine ⟨?_, ?_, ?_, ?_⟩
  · intro cleaned i hi hmatch hbefore
    exact detect_from_first base_category_matches CATEGORY_MARKERS cleaned i hi
      hmatch hbefore
  · intro cleaned h
    exact detect_from_none base_category_matches CATEGORY_MARKERS cleaned h
  · intro tl i hi hmatch hbefore
    exact detect_from_first en_category_matches EN_CATEGORY_MARKERS tl i hi
      hmatch hbefore
  · intro tl h
    exact detect_from_none en_category_matches EN_CATEGORY_MARKERS tl h

theorem C5_witness :
    en_detect_category (lower (("how to renew a green card and a visa").data))
      = "green_card" := by
  have h := C5_category_priority.2.2.1
    (lower (("how to renew a green card and a visa").data)) 2 (by decide)
    (by decide) (by decide)
  simpa using h

/-! ## Claim C1: at most one notification per item -/

theorem mark_processed_sends (db : Database) (now : Int) (i s g t u : String)
    (c : Option String) : (db.mark_processed now i s g t u c).sends = db.sends := by
  unfold Database.mark_processed
  split <;> rfl

theorem sendCount_congr (id : String) (d1 d2 : Database)
    (h : d1.sends = d2.sends) : sendCount id d1 = sendCount id d2 := by
  unfold sendCount
  rw [h]

theorem mark_processed_mono (db : Database) (now : Int) (i s g t u : String)
    (c : Option String) (x : String) (h : db.is_processed x = true) :
    (db.mark_processed now i s g t u c).is_processed x = true := by
  unfold Database.mark_processed
  split
  · exact h
  · unfold Database.is_processed at *
    simp only [List.any_append]
    simp [h]

theorem mark_processed_self (db : Database) (now : Int) (i s g t u : String)
    (c : Option String) (h : db.is_processed i = false) :
    (db.mark_processed now i s g t u c).is_processed i = true := by
  unfold Database.mark_processed
  rw [if_neg (by simp [h])]
  unfold Database.is_processed
  simp

theorem any_key_map_notified (l : List (String × ProcessedRecord)) (i id : String) :
    (l.map (fun p =>
      if p.1 == i then (p.1, { p.2 with notified := true }) else p)).any
        (fun p => p.1 == id)
      = l.any (fun p => p.1 == id) := by
  induction l with
  | nil => rfl
  | cons p l ih =>
    cases hp : p.1 == i <;>
      simp only [List.map_cons, List.any_cons, hp, if_pos, if_neg,
        Bool.false_eq_true, ite_false, ite_true, ih]

theorem is_processed_mark_notified (db : Database) (now : Int) (i id : String) :
    (db.mark_notified now i).is_processed id = db.is_processed id := by
  unfold Database.mark_notified Database.is_processed
  exact any_key_map_notified db.processed_items i id

theorem is_processed_dispatch (outs : List OutputFn) (item : MonitorItem)
    (res : ClassificationResult) (now : Int) (db : Database) (id : String) :
    (dispatch outs item res now db).is_processed id = db.is_processed id := by
  induction outs with
  | nil => rfl
  | cons o rest ih =>
    unfold dispatch
    split
    · exact is_processed_mark_notified db now item.id id
    · exact ih

theorem dispatch_sends (outs : List OutputFn) (item : MonitorItem)
    (res : ClassificationResult) (now : Int) (db : Database) :
    (dispatch outs item res now db).sends = db.sends
    ∨ (dispatch outs item res now db).sends = db.sends ++ [item.id] := by
  induction outs with
  | nil => exact Or.inl rfl
  | cons o rest ih =>
    unfold dispatch
    split
    · exact Or.inr rfl
    · exact ih

theorem mark_SendInv (db : Database) (now : Int) (i s g t u : String)
    (c : Option String) (h : SendInv db) :
    SendInv (db.mark_processed now i s g t u c) := by
  intro id
  obtain ⟨h1, h2⟩ := h id
  have hc : sendCount id (db.mark_processed now i s g t u c) = sendCount id db :=
    sendCount_congr id _ db (mark_processed_sends db now i s g t u c)
  refine ⟨?_, ?_⟩
  · rw [hc]; exact h1
  · rw [hc]
    intro hge
    exact mark_processed_mono db now i s g t u c id (h2 hge)

theorem dispatch_after_mark_SendInv (outs : List OutputFn) (item : MonitorItem)
    (res : ClassificationResult) (now : Int) (db : Database)
    (src gn tp url : String) (c : Option String) (h : SendInv db)
    (hproc : db.is_processed item.id = false) :
    SendInv (dispatch outs item res now
      (db.mark_processed now item.id src gn tp url c)) := by
  have hsends1 : (db.mark_processed now item.id src gn tp url c).sends = db.sends :=
    mark_processed_sends db now item.id src gn tp url c
  have hself : (db.mark_processed now item.id src gn tp url c).is_processed item.id
      = true := mark_processed_self db now item.id src gn tp url c hproc
  rcases dispatch_sends outs item res now
      (db.mark_processed now item.id src gn tp url c) with hs | hs
  · intro id
    obtain ⟨h1, h2⟩ := h id
    have hc : sendCount id (dispatch outs item res now
        (db.mark_processed now item.id src gn tp url c)) = sendCount id db :=
      sendCount_congr id _ db (hs.trans hsends1)
    refine ⟨?_, ?_⟩
    · rw [hc]; exact h1
    · rw [hc]
      intro hge
      rw [is_processed_dispatch]
      exact mark_processed_mono db now item.id src gn tp url c id (h2 hge)
  · intro id
    obtain ⟨h1, h2⟩ := h id
    have hnew : sendCount id (dispatch outs item res now
        (db.mark_processed now item.id src gn tp url c))
        = sendCount id db + (if item.id == id then 1 else 0) := by
      unfold sendCount
      rw [hs, hsends1]
      exact length_filter_append_one _ _ _
    cases hbe : item.id == id with
    | false =>
      refine ⟨?_, ?_⟩
      · rw [hnew, hbe]
        simpa using h1
      · rw [hnew, hbe]
        intro hge
        rw [is_processed_dispatch]
        exact mark_processed_mono db now item.id src gn tp url c id
          (h2 (by simpa using hge))
    | true =>
      have hid : item.id = id := eq_of_beq hbe
      have hzero : sendCount id db = 0 := by
        by_contra hnz
        have hge : 1 ≤ sendCount id db := Nat.one_le_iff_ne_zero.mpr hnz
        have hp := h2 hge
        rw [← hid] at hp
        rw [hp] at hproc
        exact absurd hproc (by simp)
      refine ⟨?_, ?_⟩
      · rw [hnew, hzero, hbe]
        simp
      · intro hge
        rw [is_processed_dispatch, ← hid]
        exact hself

theorem process_one_SendInv (cfg : MonitorConfig) (outs : List OutputFn)
    (now : Int) (db : Database) (s : ItemStep) (h : SendInv db) :
    SendInv (process_one cfg outs now db s) := by
  unfold process_one
  split
  · exact h
  · next hproc =>
    have hproc2 : db.is_processed s.item.id = false := by
      cases hx : db.is_processed s.item.id
      · rfl
      · exact absurd hx hproc
    split
    · exact mark_SendInv db now s.item.id s.item.source s.item.channel
        s.item.text s.item.url none h
    · split
      · exact dispatch_after_mark_SendInv outs s.item s.result now db
          s.item.source s.item.channel s.item.text s.item.url _ h hproc2
      · exact mark_SendInv db now s.item.id s.item.source s.item.channel
          s.item.text s.item.url _ h

theorem process_source_SendInv (cfg : MonitorConfig) (outs : List OutputFn)
    (now : Int) (items : List ItemStep) (db : Database) (h : SendInv db) :
    SendInv (process_source cfg outs now db items) := by
  induction items generalizing db with
  | nil => exact h
  | cons s rest ih =>
    show SendInv (process_source cfg outs now (process_one cfg outs now db s) rest)
    exact ih _ (process_one_SendInv cfg outs now db s h)

theorem runPasses_SendInv (passes : List PassInput) (db : Database)
    (h : SendInv db) : SendInv (runPasses passes db) := by
  induction passes generalizing db with
  | nil => exact h
  | cons p rest ih =>
    show SendInv (runPasses rest (process_source p.cfg p.outputs p.now db p.items))
    exact ih _ (process_source_SendInv p.cfg p.outputs p.now p.items db h)

theorem SendInv_empty : SendInv Database.empty := by
  intro id
  refine ⟨?_, ?_⟩
  · rw [show sendCount id Database.empty = 0 from rfl]
    omega
  · intro hge
    rw [show sendCount id Database.empty = 0 from rfl] at hge
    omega

/-- C1: starting from an empty store, across any number of passes with any
items, any classifications and any number of configured dispatch outputs, each
item id is the subject of at most one mark-notified invocation ever (the ghost
send log counts every such invocation), so the notified flag transitions false
to true at most once and at most one notification is ever sent per item;
moreover an item already recorded as processed is skipped by a pass before any
dispatch, and one dispatch tries outputs in order and stops at the first
success, performing at most one mark-notified invocation. -/
theorem C1_at_most_one_notification :
    (∀ (passes : List PassInput) (id : String),
      sendCount id (runPasses passes Database.empty) ≤ 1)
    ∧ (∀ (cfg : MonitorConfig) (outputs : List OutputFn) (now : Int)
        (db : Database) (s : ItemStep), db.is_processed s.item.id = true →
        process_one cfg outputs now db s = db)
    ∧ (∀ (outputs : List OutputFn) (item : MonitorItem)
        (res : ClassificationResult) (now : Int) (db : Database),
        (dispatch outputs item res now db).sends.length ≤ db.sends.length + 1) := by
  refine ⟨?_, ?_, ?_⟩
  · intro passes id
    exact (runPasses_SendInv passes Database.empty SendInv_empty id).1
  · intro cfg outputs now db s h
    unfold process_one
    rw [if_pos h]
  · intro outputs item res now db
    rcases dispatch_sends outputs item res now db with hs | hs
    · rw [hs]; omega
    · rw [hs]; simp

theorem C1_witness :
    sendCount "a1" (runPasses [⟨sample_cfg, [], 0, [sample_step]⟩]
      Database.empty) ≤ 1
    ∧ process_one sample_cfg [] 0 sample_db sample_step = sample_db
    ∧ (dispatch [] sample_item sample_result 0 Database.empty).sends.length ≤
        Database.empty.sends.length + 1 := by
  exact ⟨C1_at_most_one_notification.1 [⟨sample_cfg, [], 0, [sample_step]⟩] "a1",
    C1_at_most_one_notification.2.1 sample_cfg [] 0 sample_db sample_step
      (by decide),
    C1_at_most_one_notification.2.2 [] sample_item sample_result 0 Database.empty⟩

/-! ## Claim C3: whole-word boundary matching -/

theorem getElem_append_length_add (l r : List Char) (k : Nat) :
    (l ++ r)[l.length + k]? = r[k]? := by
  rw [List.getElem?_append_right (Nat.le_add_right l.length k)]
  congr 1
  omega

theorem word_match_spec (kw t : List Char) :
    word_match kw t = true ↔ ∃ i, i ≤ t.length ∧ kw.isPrefixOf (t.drop i) = true
      ∧ boundaryBefore t i = true ∧ boundaryAfter t (i + kw.length) = true := by
  unfold word_match
  rw [List.any_eq_true]
  constructor
  · rintro ⟨i, hmem, hcond⟩
    rw [List.mem_range] at hmem
    simp only [Bool.and_eq_true] at hcond
    exact ⟨i, by omega, hcond.1.1, hcond.1.2, hcond.2⟩
  · rintro ⟨i, hle, h1, h2, h3⟩
    refine ⟨i, List.mem_range.mpr (by omega), ?_⟩
    simp only [Bool.and_eq_true]
    exact ⟨⟨h1, h2⟩, h3⟩

theorem word_match_imp_occurs (kw t : List Char)
    (h : word_match kw t = true) : occursAsToken kw t := by
  obtain ⟨i, hile, hpre, hbb, hba⟩ := (word_match_spec kw t).mp h
  obtain ⟨post, hpost⟩ := List.isPrefixOf_iff_prefix.mp hpre
  refine ⟨t.take i, post, ?_, ?_, ?_⟩
  · rw [List.append_assoc, hpost]
    exact List.take_append_drop i t
  · cases i with
    | zero => exact Or.inl (by simp)
    | succ k =>
      right
      have hnw : isWordChar (t.getD k ' ') = false := by
        unfold boundaryBefore at hbb
        simpa using hbb
      have hk : k < t.length := by omega
      refine ⟨t.take k, t.get ⟨k, hk⟩, ?_, ?_⟩
      · rw [List.take_succ, List.getElem?_eq_getElem hk]
        rw [List.get_eq_getElem]
        rfl
      · have hgd : t.getD k ' ' = t.get ⟨k, hk⟩ := by
          rw [List.getD_eq_getElem?_getD, List.getElem?_eq_getElem hk,
            List.get_eq_getElem]
          rfl
        rw [← hgd]
        exact hnw
  · by_cases hend : t.length ≤ i + kw.length
    · left
      have hlen : (t.drop i).length = t.length - i := List.length_drop i t
      have hsum : kw.length + post.length = t.length - i := by
        rw [← List.length_append, hpost, hlen]
      exact List.eq_nil_of_length_eq_zero (by omega)
    · right
      have hj : i + kw.length < t.length := by omega
      have ht : t = t.take i ++ (kw ++ post) := by
        rw [hpost, List.take_append_drop]
      have hlen_take : (t.take i).length = i := by
        rw [List.length_take]
        omega
      cases post with
      | nil =>
        exfalso
        have : t.length = i + kw.length := by
          conv_lhs => rw [ht]
          simp only [List.length_append, hlen_take, List.length_nil]
          omega
        omega
      | cons c a =>
        refine ⟨c, a, rfl, ?_⟩
        have hnw : isWordChar (t.getD (i + kw.length) ' ') = false := by
          unfold boundaryAfter at hba
          rw [decide_eq_false (by omega)] at hba
          simpa using hba
        have hgd : t.getD (i + kw.length) ' ' = c := by
          conv_lhs => rw [ht]
          rw [List.getD_eq_getElem?_getD]
          rw [show i + kw.length = (t.take i).length + kw.length by rw [hlen_take]]
          rw [getElem_append_length_add]
          rw [show kw.length = kw.length + 0 by omega]
          rw [getElem_append_length_add]
          simp
        rw [← hgd]
        exact hnw

theorem occurs_imp_word_match (kw t : List Char)
    (h : occursAsToken kw t) : word_match kw t = true := by
  obtain ⟨pre, post, heq, hpre, hpost⟩ := h
  subst heq
  rw [List.append_assoc]
  apply (word_match_spec kw (pre ++ (kw ++ post))).mpr
  refine ⟨pre.length, ?_, ?_, ?_, ?_⟩
  · simp only [List.length_append]
    omega
  · rw [List.drop_left]
    exact List.isPrefixOf_iff_prefix.mpr ⟨post, rfl⟩
  · cases hpre with
    | inl h0 => subst h0; rfl
    | inr hr =>
      obtain ⟨a, c, hac, hw⟩ := hr
      subst hac
      unfold boundaryBefore
      have hgd : ((a ++ [c]) ++ (kw ++ post)).getD ((a ++ [c]).length - 1) ' ' = c := by
        rw [List.getD_eq_getElem?_getD]
        rw [show (a ++ [c]).length - 1 = a.length by simp]
        rw [List.getElem?_append_left (by simp)]
        rw [List.getElem?_concat_length]
        rfl
      rw [hgd, hw]
      simp
  · cases hpost with
    | inl h0 =>
      subst h0
      unfold boundaryAfter
      rw [Bool.or_eq_true]
      left
      apply decide_eq_true
      simp only [List.length_append, List.length_nil]
      omega
    | inr hr =>
      obtain ⟨c, a, hca, hw⟩ := hr
      subst hca
      unfold boundaryAfter
      rw [Bool.or_eq_true]
      right
      have hgd : (pre ++ (kw ++ (c :: a))).getD (pre.length + kw.length) ' ' = c := by
        rw [List.getD_eq_getElem?_getD]
        rw [show pre ++ (kw ++ (c :: a)) = (pre ++ kw) ++ (c :: a) by
          rw [List.append_assoc]]
        rw [show pre.length + kw.length = (pre ++ kw).length + 0 by
          simp [List.length_append]]
        rw [getElem_append_length_add]
        simp
      rw [hgd, hw]
      rfl

theorem word_match_iff (kw t : List Char) :
    word_match kw t = true ↔ occursAsToken kw t :=
  ⟨word_match_imp_occurs kw t, occurs_imp_word_match kw t⟩

theorem isWordChar_cleanChar (c : Char) : isWordChar (cleanChar c) = isWordChar c := by
  unfold cleanChar
  split
  · rfl
  · next h =>
    have hw : isWordChar c = false := by
      cases hx : isWordChar c
      · rfl
      · exact absurd (by simp [hx]) h
    rw [hw]
    rfl

theorem cleanChar_of_word (c : Char) (h : isWordChar c = true) : cleanChar c = c := by
  unfold cleanChar
  rw [if_pos (by simp [h])]

theorem map_clean_self (kw : List Char) (h : ∀ c ∈ kw, isWordChar c = true) :
    kw.map cleanChar = kw := by
  induction kw with
  | nil => rfl
  | cons a u ih =>
    rw [List.map_cons, cleanChar_of_word a (h a (List.mem_cons_self a u)),
      ih (fun c hc => h c (List.mem_cons_of_mem a hc))]

theorem map_clean_eq_allword (u kw : List Char) (hmap : u.map cleanChar = kw)
    (h : ∀ c ∈ kw, isWordChar c = true) : u = kw := by
  induction u generalizing kw with
  | nil => exact hmap
  | cons a u ih =>
    cases kw with
    | nil => simp at hmap
    | cons b kw2 =>
      simp only [List.map_cons, List.cons.injEq] at hmap
      obtain ⟨hab, hrest⟩ := hmap
      have hb : isWordChar b = true := h b (List.mem_cons_self b kw2)
      have ha : a = b := by
        by_cases haw : isWordChar a = true
        · rw [← hab]
          exact (cleanChar_of_word a haw).symm
        · exfalso
          have hwc := isWordChar_cleanChar a
          rw [hab, hb] at hwc
          exact haw hwc.symm
      rw [ha, ih kw2 hrest (fun c hc => h c (List.mem_cons_of_mem b hc))]

theorem map_append_split (f : Char → Char) (t x y : List Char)
    (h : t.map f = x ++ y) :
    ∃ t1 t2, t = t1 ++ t2 ∧ t1.map f = x ∧ t2.map f = y := by
  induction x generalizing t with
  | nil => exact ⟨[], t, rfl, rfl, by simpa using h⟩
  | cons b x ih =>
    cases t with
    | nil => simp at h
    | cons a t =>
      simp only [List.map_cons, List.cons_append, List.cons.injEq] at h
      obtain ⟨hab, ht⟩ := h
      obtain ⟨t1, t2, h1, h2, h3⟩ := ih t ht
      exact ⟨a :: t1, t2, by rw [List.cons_append, h1],
        by rw [List.map_cons, hab, h2], h3⟩

theorem occursAsToken_map (kw t : List Char)
    (hkw : ∀ c ∈ kw, isWordChar c = true) :
    occursAsToken kw t ↔ occursAsToken kw (t.map cleanChar) := by
  constructor
  · rintro ⟨pre, post, heq, hpre, hpost⟩
    refine ⟨pre.map cleanChar, post.map cleanChar, ?_, ?_, ?_⟩
    · rw [← heq]
      simp only [List.map_append]
      rw [map_clean_self kw hkw]
    · cases hpre with
      | inl h0 => exact Or.inl (by rw [h0]; rfl)
      | inr hr =>
        obtain ⟨a, c, hac, hw⟩ := hr
        exact Or.inr ⟨a.map cleanChar, cleanChar c, by rw [hac]; simp,
          by rw [isWordChar_cleanChar]; exact hw⟩
    · cases hpost with
      | inl h0 => exact Or.inl (by rw [h0]; rfl)
      | inr hr =>
        obtain ⟨c, a, hca, hw⟩ := hr
        exact Or.inr ⟨cleanChar c, a.map cleanChar, by rw [hca]; simp,
          by rw [isWordChar_cleanChar]; exact hw⟩
  · rintro ⟨pre1, post1, heq, hpre, hpost⟩
    rw [List.append_assoc] at heq
    obtain ⟨t1, t23, ht, hm1, hm23⟩ :=
      map_append_split cleanChar t pre1 (kw ++ post1) heq.symm
    obtain ⟨t2, t3, ht23, hm2, hm3⟩ :=
      map_append_split cleanChar t23 kw post1 hm23
    have ht2 : t2 = kw := map_clean_eq_allword t2 kw hm2 hkw
    refine ⟨t1, t3, ?_, ?_, ?_⟩
    · rw [List.append_assoc, ht, ht23, ht2]
    · cases hpre with
      | inl h0 =>
        left
        rw [h0] at hm1
        exact List.map_eq_nil_iff.mp hm1
      | inr hr =>
        obtain ⟨a1, c1, hac, hw⟩ := hr
        right
        rcases List.eq_nil_or_concat t1 with h1 | ⟨a, c, hconc⟩
        · rw [h1, hac] at hm1
          simp at hm1
        · rw [List.concat_eq_append] at hconc
          refine ⟨a, c, hconc, ?_⟩
          rw [hconc, hac] at hm1
          simp only [List.map_append, List.map_cons, List.map_nil] at hm1
          have h2 := (List.append_inj' hm1 (by simp)).2
          have hcc : cleanChar c = c1 := by
            simpa using h2
          rw [← isWordChar_cleanChar, hcc]
          exact hw
    · cases hpost with
      | inl h0 =>
        left
        rw [h0] at hm3
        exact List.map_eq_nil_iff.mp hm3
      | inr hr =>
        obtain ⟨c1, a1, hca, hw⟩ := hr
        right
        cases t3 with
        | nil =>
          rw [hca] at hm3
          simp at hm3
        | cons c a =>
          refine ⟨c, a, rfl, ?_⟩
          rw [hca] at hm3
          simp only [List.map_cons, List.cons.injEq] at hm3
          rw [← isWordChar_cleanChar, hm3.1]
          exact hw

theorem cleanChar_ne_dash (c : Char) : cleanChar c ≠ '-' := by
  unfold cleanChar
  split
  · next h =>
    intro he
    rw [he] at h
    exact absurd h (by decide)
  · intro he
    exact absurd he (by decide)

theorem clean_text_no_dash (t : List Char) : '-' ∉ clean_text t := by
  intro hmem
  unfold clean_text at hmem
  obtain ⟨c0, _, hc0⟩ := List.mem_map.mp hmem
  exact cleanChar_ne_dash c0 hc0

/-- C3 counterexample: the whole-word keyword for the arrival form (which
contains a hyphen) is matched by the English classifier in the lower-cased raw
text, yet it never occurs as a whole token of the punctuation-cleaned text,
because cleaning replaces the hyphen by a space — so the claimed equivalence
fails for markers containing punctuation. -/
theorem C3_counterexample :
    keyword_match (("i-94").data) (lower (("form i-94 was lost").data)) = true
    ∧ ¬ occursAsToken (("i-94").data)
        (clean_text (("form i-94 was lost").data)) := by
  refine ⟨by decide, ?_⟩
  rintro ⟨pre, post, heq, -, -⟩
  apply clean_text_no_dash (("form i-94 was lost").data)
  rw [← heq]
  have hdash : '-' ∈ ("i-94").data := by decide
  rw [List.append_assoc]
  exact List.mem_append.mpr (Or.inr (List.mem_append.mpr (Or.inl hdash)))

/-- C3 (amended): for every marker consisting solely of word characters —
which covers every short acronym such as the three-letter enforcement acronym
and every Cyrillic marker, though not the hyphenated form numbers — the
word-boundary match of the classifiers succeeds on the lower-cased text, and
equally on the cleaned text, exactly when the marker occurs as a whole token
(no adjacent word character) of the text after lowercasing and replacing
punctuation by whitespace; in particular the enforcement acronym matches an
agents-raided sentence but not inside the word service, and an inflected
Cyrillic visa marker matches a tourist-visas phrase but never inside a longer
compound word containing the same letter sequence. -/
theorem C3_whole_word_boundary :
    (∀ (kw text : List Char), (∀ c ∈ kw, isWordChar c = true) →
      ((word_match kw (lower text) = true ↔
          occursAsToken kw (clean_text text))
       ∧ (word_match kw (clean_text text) = true ↔
          occursAsToken kw (clean_text text))))
    ∧ keyword_match (("ice").data)
        (lower (("ICE agents raided the warehouse").data)) = true
    ∧ keyword_match (("ice").data)
        (lower (("great customer service center").data)) = false
    ∧ word_match (clean_text (("віз").data))
        (clean_text (("самовивіз з пошти").data)) = false
    ∧ word_match (clean_text (("віз").data))
        (clean_text (("туристичних віз немає").data)) = true := by
  refine ⟨?_, by decide, by decide, by decide, by decide⟩
  intro kw text hkw
  constructor
  · rw [word_match_iff kw (lower text)]
    exact occursAsToken_map kw (lower text) hkw
  · exact word_match_iff kw (clean_text text)

theorem C3_witness :
    (∀ c ∈ ("ice").data, isWordChar c = true)
    ∧ occursAsToken (("ice").data)
        (clean_text (("ICE agents raided the warehouse").data)) := by
  refine ⟨by decide, ?_⟩
  exact ((C3_whole_word_boundary.1 (("ice").data)
    (("ICE agents raided the warehouse").data) (by decide)).1).mp (by decide)

/-! ## Claim C8: rolling-hour rate limiting (timestamp text comparison) -/

theorem text_lt_append_common (p x y : List Char) :
    text_lt (p ++ x) (p ++ y) = text_lt x y := by
  induction p with
  | nil => rfl
  | cons a p ih =>
    show (if a.toNat < a.toNat then true
          else if a.toNat < a.toNat then false
          else text_lt (p ++ x) (p ++ y)) = text_lt x y
    rw [if_neg (Nat.lt_irrefl a.toNat), if_neg (Nat.lt_irrefl a.toNat)]
    exact ih

theorem text_lt_str (p a b : String) :
    text_lt ((p ++ a)).data ((p ++ b)).data = text_lt a.data b.data := by
  rw [String.data_append, String.data_append]
  exact text_lt_append_common p.data a.data b.data

theorem same_day_not_counted (s c : UtcTime) (micro : Nat)
    (hy : c.year = s.year) (hm : c.month = s.month) (hd : c.day = s.day) :
    text_lt (py_isoformat c micro).data (sqlite_current_timestamp s).data
      = false := by
  unfold py_isoformat sqlite_current_timestamp
  rw [show date_str c = date_str s by unfold date_str; rw [hy, hm, hd]]
  rw [text_lt_str]
  rfl

theorem count_same_day_zero (c : UtcTime) (micro : Nat) (stamps : List UtcTime)
    (h : ∀ s ∈ stamps, c.year = s.year ∧ c.month = s.month ∧ c.day = s.day) :
    get_notifications_count_last_hour (stamps.map sqlite_current_timestamp)
      (py_isoformat c micro) = 0 := by
  unfold get_notifications_count_last_hour
  rw [List.length_eq_zero, List.filter_eq_nil_iff]
  intro a ha
  obtain ⟨s, hs, rfl⟩ := List.mem_map.mp ha
  obtain ⟨hy, hm, hd⟩ := h s hs
  simp [same_day_not_counted s c micro hy hm hd]

/-- C8: the claim states the intended rolling-hour rate limit, and the code
means to implement it (the query method is documented as the count of
notifications sent in the last hour), but the stored sqlite CURRENT_TIMESTAMP
text (space-separated) is compared as a string against the isoformat cutoff
(T-separated), and the space sorts below the letter T: a stored row whose
calendar day equals the cutoff day is never counted, whatever its time. The
rolling count is therefore 0 in every same-day scenario, the ceiling check
never fires there, and with ceiling 2 and 3 eligible items inside the window
all 3 are dispatched — not exactly 2 with the third skipped. -/
theorem C8_rate_limit_never_fires :
    (∀ (c : UtcTime) (micro : Nat) (stamps : List UtcTime),
      (∀ s ∈ stamps, c.year = s.year ∧ c.month = s.month ∧ c.day = s.day) →
      get_notifications_count_last_hour (stamps.map sqlite_current_timestamp)
        (py_isoformat c micro) = 0)
    ∧ get_notifications_count_last_hour
        [sqlite_current_timestamp ⟨2026, 1, 15, 12, 0, 0⟩,
         sqlite_current_timestamp ⟨2026, 1, 15, 12, 0, 1⟩]
        (py_isoformat ⟨2026, 1, 15, 11, 30, 0⟩ 123456) = 0
    ∧ (run_eligible 2 ⟨true, true⟩
        (py_isoformat ⟨2026, 1, 15, 11, 30, 0⟩ 123456) "12:30 UTC"
        sample_result
        [(sample_item, ⟨2026, 1, 15, 12, 0, 0⟩),
         (sample_item, ⟨2026, 1, 15, 12, 0, 1⟩),
         (sample_item, ⟨2026, 1, 15, 12, 0, 2⟩)] []).length = 3
    ∧ seconds_of_day ⟨2026, 1, 15, 12, 30, 0⟩
        - seconds_of_day ⟨2026, 1, 15, 12, 0, 0⟩ < 3600 := by
  refine ⟨count_same_day_zero, by decide, by decide, by decide⟩

theorem C8_witness :
    get_notifications_count_last_hour
      ([⟨2026, 1, 15, 12, 0, 0⟩, ⟨2026, 1, 15, 12, 0, 1⟩].map
        sqlite_current_timestamp)
      (py_isoformat ⟨2026, 1, 15, 11, 30, 0⟩ 123456) = 0 := by
  exact C8_rate_limit_never_fires.1 ⟨2026, 1, 15, 11, 30, 0⟩ 123456
    [⟨2026, 1, 15, 12, 0, 0⟩, ⟨2026, 1, 15, 12, 0, 1⟩] (by decide)
